import Mathlib

/-!
Verification development for the adaptive NL-to-SQL translation pipeline of the
`alive` repository (final_enhanced_rag_system.py, working_enhanced_rag.py,
argo_web_deployment/backend/main.py, analyze_parquet_schema.py).

Python floats are modelled as exact rationals (`Rat`); Python exceptions that
escape a function are modelled with `Except`; external collaborators (the
ChromaDB vector store, the HF embedding endpoint, the Groq completion
endpoint, the DuckDB engine) are modelled as explicit oracle parameters whose
responses are data.
-/

namespace AliveRag

set_option allowUnsafeReducibility true

attribute [local semireducible] Rat.add Rat.sub Rat.mul Rat.div Rat.inv
  Rat.ofScientific

deriving instance DecidableEq for Except

/-! ## Python string primitives

`isPySpace` is the character class of Python's `str.strip()` / regex `\s`
(ASCII subset: space, tab, newline, carriage return, vertical tab, form feed).
-/

/-- Python's two-argument `max`, written so that the kernel can evaluate it
on rational literals (it equals `max`, see `pymax_eq_max`). -/
def pymax (a b : Rat) : Rat :=
  if a < b then b else a

theorem pymax_eq_max (a b : Rat) : pymax a b = max a b := by
  by_cases h : a < b
  · rw [pymax, if_pos h, max_eq_right h.le]
  · rw [pymax, if_neg h, max_eq_left (not_lt.1 h)]

def isPySpace (c : Char) : Bool :=
  c = ' ' || c = '\t' || c = '\n' || c = '\r' || c = '\x0b' || c = '\x0c'

def rtrimWs (l : List Char) : List Char :=
  (l.reverse.dropWhile isPySpace).reverse

def ltrimWs (l : List Char) : List Char :=
  l.dropWhile isPySpace

/-- Python `s.strip()`. -/
def py_strip (s : String) : String :=
  String.mk (rtrimWs (ltrimWs s.toList))

/-- Python `s.rstrip(';')`: drop every trailing `';'`. -/
def rstrip_semicolons (s : String) : String :=
  String.mk ((s.toList.reverse.dropWhile (fun c => c = ';')).reverse)

/-- The SQL cleaning done by both query executors
(`EnhancedParquetEngine.execute_query` and `WorkingRAGSystem.execute_query`):
`sql.strip().rstrip(';')`. -/
def clean_sql (sql : String) : String :=
  rstrip_semicolons (py_strip sql)

/-! ## The SQL-extraction regex cascade

`FinalEnhancedRAGSystem.process_enhanced_query` (lines 688-699) tries, in
order, the patterns

  1. `r'SQL:\s*([^;]+(?:;|$))'`   (IGNORECASE,DOTALL)
  2. `r'sql:\s*([^;]+(?:;|$))'`   (redundant: pattern 1 is case-insensitive)
  3. `r'SELECT\s+[^;]+(?:;|$)'`   (IGNORECASE,DOTALL)
  4. `r'select\s+[^;]+(?:;|$)'`   (redundant)

against the best template document and, at the first pattern that matches,
runs `match.group(1).strip().rstrip(';')`.  Patterns 3 and 4 contain no
capturing group, so a document matching only them makes `match.group(1)`
raise `IndexError` (uncaught).  We reproduce leftmost-match-with-backtracking
semantics of `re.search` for these concrete patterns.

`matchSqlTail r` decides whether `\s*([^;]+(?:;|$))` matches at the start of
`r` and, if so, returns the content of group 1 after `.strip().rstrip(';')`:
the greedy `\s*` consumes the maximal whitespace prefix; `[^;]+` then
consumes the maximal run of non-semicolon characters (backtracking into the
whitespace when the first non-whitespace character is `';'` or the string
ends, in which case the cleaned group is empty). -/

def matchSqlTail (r : List Char) : Option (List Char) :=
  let w := r.takeWhile isPySpace
  let rest := r.dropWhile isPySpace
  match rest with
  | [] => if w.isEmpty then none else some []
  | c :: _ =>
    if c = ';' then
      (if w.isEmpty then none else some [])
    else
      let body := rest.takeWhile (fun ch => ch ≠ ';')
      let after := rest.dropWhile (fun ch => ch ≠ ';')
      match after with
      | [] => some (rtrimWs body)
      | _ :: _ => some body

/-- Leftmost occurrence of `SQL:` (case-insensitive) whose tail matches
`\s*([^;]+(?:;|$))`; returns the cleaned group 1. -/
def findSqlLabel : List Char → Option (List Char)
  | [] => none
  | c :: rest =>
    if c.toLower = 's' then
      match rest with
      | q :: l :: colon :: tail =>
        if q.toLower = 'q' && l.toLower = 'l' && colon = ':' then
          match matchSqlTail tail with
          | some g => some g
          | none => findSqlLabel rest
        else findSqlLabel rest
      | _ => findSqlLabel rest
    else findSqlLabel rest

/-- Whether `\s+[^;]+(?:;|$)` matches at the start of `r` (with Python
backtracking: `\s+` may give characters back to `[^;]+`). -/
def selectTailMatches (r : List Char) : Bool :=
  let w := r.takeWhile isPySpace
  let rest := r.dropWhile isPySpace
  if w.isEmpty then false
  else if 2 ≤ w.length then true
  else
    match rest with
    | [] => false
    | c :: _ => c ≠ ';'

/-- Whether `SELECT\s+[^;]+(?:;|$)` (case-insensitive) matches anywhere. -/
def hasSelectMatch : List Char → Bool
  | [] => false
  | c :: rest =>
    if c.toLower = 's' then
      match rest with
      | e1 :: l :: e2 :: c2 :: t :: tail =>
        if e1.toLower = 'e' && l.toLower = 'l' && e2.toLower = 'e'
            && c2.toLower = 'c' && t.toLower = 't' then
          selectTailMatches tail || hasSelectMatch rest
        else hasSelectMatch rest
      | _ => hasSelectMatch rest
    else hasSelectMatch rest

/-- The extraction step of `process_enhanced_query` on the best document:
`.ok s` is `rag_sql = s` (with `s = ""` when no pattern matched, since
`rag_sql` is initialised to `""`); `.error ()` is the uncaught `IndexError`
raised by `match.group(1)` when only the group-less `SELECT` patterns match. -/
def extract_rag_sql (doc : String) : Except Unit String :=
  match findSqlLabel doc.toList with
  | some g => Except.ok (String.mk g)
  | none =>
    if hasSelectMatch doc.toList then Except.error ()
    else Except.ok ""

/-! ## Embedding provider (`OptimizedChromaManager`)

`_get_api_embeddings` posts to the HF endpoint up to `max_retries = 3` times;
a 200 answer is returned (reshaped and L2-normalised — that arithmetic is
kept abstract inside `ApiAttempt.success`), a 503 answer or a raised request
exception moves to the next attempt, any other status aborts with `None`, and
exhausting the attempts yields `None`.  Without a token it returns `None`
immediately. -/

inductive ApiAttempt : Type
  | success (e : List (List Rat))
  | rateLimited
  | httpError
  | exn
deriving DecidableEq

def get_api_embeddings_loop : List ApiAttempt → Option (List (List Rat))
  | [] => none
  | ApiAttempt.success e :: _ => some e
  | ApiAttempt.rateLimited :: rest => get_api_embeddings_loop rest
  | ApiAttempt.exn :: rest => get_api_embeddings_loop rest
  | ApiAttempt.httpError :: _ => none

def get_api_embeddings (has_token : Bool) (attempts : List ApiAttempt) :
    Option (List (List Rat)) :=
  if has_token then get_api_embeddings_loop (attempts.take 3) else none

/-- `APIEmbeddingFunction.__call__` (lines 319-340): on API failure it falls
back to a local sentence-transformers model (`local_result`, `none` when that
raises), and when both fail it returns the constant placeholder embedding
`[[0.1] * 384 for _ in input]`.  It never raises and never returns fewer
vectors than inputs on the final fallback. -/
def APIEmbeddingFunction_call (has_token : Bool) (attempts : List ApiAttempt)
    (local_result : Option (List (List Rat))) (input : List String) :
    List (List Rat) :=
  match get_api_embeddings has_token attempts with
  | some e => e
  | none =>
    match local_result with
    | some e => e
    | none => input.map (fun _ => List.replicate 384 ((1 : Rat) / 10))

/-! ## Semantic search (`OptimizedChromaManager.semantic_search`, lines 417-453)

`collection.query` (ChromaDB) is an external collaborator: it is modelled as
an oracle `store : String → Except Unit (List RawHit)` giving, per variation
text, either the raised exception (`.error ()`, caught by the surrounding
`try`/`except` which then `continue`s) or the ranked hit list.  A `RawHit`
carries the pieces of the response the code reads: the document, the
`'id'` and `'type'` fields of the stored metadata when present (the corpus
built by `analyze_parquet_schema.create_optimized_chromadb_data` stores
metadata keys `type, table, column, category, complexity, data_type` — no
`'id'` key), and the reported distance. -/

structure RawHit : Type where
  document : String
  meta_id : Option String
  meta_type : Option String
  distance : Rat
deriving DecidableEq

/-- One value of the `all_results` dict: `{'document', 'metadata',
'similarity', 'query_used'}` (metadata represented by the two fields the
pipeline reads). -/
structure MergedEntry : Type where
  document : String
  meta_id : Option String
  meta_type : Option String
  similarity : Rat
  query_used : String
deriving DecidableEq

/-- Insertion-ordered dict, as an association list: lookup. -/
def lookup_result (m : List (String × MergedEntry)) (k : String) :
    Option MergedEntry :=
  (m.find? (fun p => p.1 = k)).map (fun p => p.2)

/-- Insertion-ordered dict: `m[k] = e` (replacement keeps the original
position, a fresh key is appended — Python 3.7+ dict semantics). -/
def update_result : List (String × MergedEntry) → String → MergedEntry →
    List (String × MergedEntry)
  | [], k, e => [(k, e)]
  | (k', e') :: rest, k, e =>
    if k' = k then (k, e) :: rest else (k', e') :: update_result rest k e

/-- The inner loop over one variation's hits (enumerated from `i`):
`similarity = 1.0 - distance`, `doc_id = metadata.get('id', f"doc_{i}")`,
and the entry is written iff the key is absent or the new similarity is
strictly greater. -/
def merge_hits (query_text : String) (i : Nat)
    (m : List (String × MergedEntry)) :
    List RawHit → List (String × MergedEntry)
  | [] => m
  | h :: hs =>
    let sim : Rat := 1 - h.distance
    let doc_id : String := h.meta_id.getD ("doc_" ++ toString i)
    let entry : MergedEntry :=
      ⟨h.document, h.meta_id, h.meta_type, sim, query_text⟩
    let m' :=
      match lookup_result m doc_id with
      | none => update_result m doc_id entry
      | some old =>
        if old.similarity < sim then update_result m doc_id entry else m
    merge_hits query_text (i + 1) m' hs

/-- The outer loop over `query_variations[:5]`; a variation whose store query
raises is skipped. -/
def all_results (store : String → Except Unit (List RawHit))
    (query_variations : List String) : List (String × MergedEntry) :=
  (query_variations.take 5).foldl
    (fun m query_text =>
      match store query_text with
      | Except.error _ => m
      | Except.ok hits => merge_hits query_text 0 m hits)
    []

/-- Stable insertion into a descending-by-similarity list: the inserted
element (earlier in the original order) goes before later elements of equal
similarity, matching Python's stable `sorted(..., reverse=True)`. -/
def insert_by_sim (e : MergedEntry) : List MergedEntry → List MergedEntry
  | [] => [e]
  | x :: xs =>
    if x.similarity < e.similarity || x.similarity = e.similarity then
      e :: x :: xs
    else x :: insert_by_sim e xs

def sort_by_sim_desc : List MergedEntry → List MergedEntry
  | [] => []
  | x :: xs => insert_by_sim x (sort_by_sim_desc xs)

/-- `OptimizedChromaManager.semantic_search`: merge across the first five
variations, sort by similarity descending (stable), return the first
`top_k`. -/
def semantic_search (store : String → Except Unit (List RawHit))
    (query_variations : List String) (top_k : Nat) : List MergedEntry :=
  (sort_by_sim_desc ((all_results store query_variations).map Prod.snd)).take
    top_k

/-! ## `WorkingChromaManager.semantic_search` (working_enhanced_rag.py,
lines 139-170): a single query text, `similarity = max(0.0, 1.0 - distance)`,
rank `i + 1`; an exception or an empty response yields `[]`. -/

structure WorkingResult : Type where
  document : String
  meta_id : Option String
  meta_type : Option String
  similarity : Rat
  rank : Nat
deriving DecidableEq

/-- The `for i, (doc, metadata, distance) in enumerate(zip(...))` loop body,
starting at index `i`. -/
def working_results_from (i : Nat) : List RawHit → List WorkingResult
  | [] => []
  | h :: hs =>
    ⟨h.document, h.meta_id, h.meta_type, pymax 0 (1 - h.distance), i + 1⟩ ::
      working_results_from (i + 1) hs

def working_semantic_search (store_response : Except Unit (List RawHit)) :
    List WorkingResult :=
  match store_response with
  | Except.error _ => []
  | Except.ok hits => working_results_from 0 hits

/-! ## Threshold manager (`IntelligentThresholdManager`, lines 455-515)

`query_metadata` reaches `calculate_thresholds` as a dict; the three keys it
reads (`'type'`, `'complexity'`, `'intent'`) are modelled as optional fields
(`none` = key absent).  `rag_metadata` is read only through its optional
`'type'` field (`none` also covers the empty dict passed when there is no
search result, which fails the truthiness test). -/

structure QueryMeta : Type where
  type : Option String
  complexity : Option String
  intent : Option String
deriving DecidableEq

/-- `self.adjustments['query_type'].get(·, 0.0)`. -/
def query_type_adjustment (t : String) : Rat :=
  if t = "column_query" then 10 / 100
  else if t = "table_query" then 5 / 100
  else if t = "count_query" then 8 / 100
  else if t = "join_query" then -(5 / 100)
  else if t = "measurement_query" then 3 / 100
  else 0

/-- `self.adjustments['complexity'].get(·, 0.0)`. -/
def complexity_adjustment (c : String) : Rat :=
  if c = "simple" then 5 / 100
  else if c = "medium" then 0
  else if c = "complex" then -(5 / 100)
  else 0

/-- `self.adjustments['intent'].get(·, 0.0)`. -/
def intent_adjustment (i : String) : Rat :=
  if i = "count_statistics" then 8 / 100
  else if i = "data_retrieval" then 6 / 100
  else if i = "data_filtering" then -(2 / 100)
  else if i = "aggregation" then -(3 / 100)
  else if i = "quality_control" then 2 / 100
  else 0

/-- The extra `+= 0.05` applied when the best candidate's metadata has
`type` in `['column_query', 'table_query']` (lines 507-509). -/
def rag_type_bonus (rag_type : Option String) : Rat :=
  if rag_type = some "column_query" || rag_type = some "table_query" then
    5 / 100
  else 0

/-- `total_adjustment` as accumulated by `calculate_thresholds`. -/
def total_adjustment (qm : QueryMeta) (rag_type : Option String) : Rat :=
  (match qm.type with
   | some t => query_type_adjustment t
   | none => 0)
  + (match qm.complexity with
     | some c => complexity_adjustment c
     | none => 0)
  + (match qm.intent with
     | some i => intent_adjustment i
     | none => 0)
  + rag_type_bonus rag_type

structure ThresholdSet : Type where
  high : Rat
  medium : Rat
  low : Rat
deriving DecidableEq

/-- `IntelligentThresholdManager.calculate_thresholds`: bases 0.45 / 0.25 /
0.10, the single scalar `total_adjustment` added to each, then
`max(0.05, ·)`. -/
def calculate_thresholds (qm : QueryMeta) (rag_type : Option String) :
    ThresholdSet :=
  ⟨pymax (5 / 100) (45 / 100 + total_adjustment qm rag_type),
   pymax (5 / 100) (25 / 100 + total_adjustment qm rag_type),
   pymax (5 / 100) (10 / 100 + total_adjustment qm rag_type)⟩

/-- Modelled from the spec: the adjustment scalar exactly as the C6 claim
words it — the sum of the three lookup-table values for the query's type,
complexity and intent, unmatched or absent keys contributing 0 (no other
term).  Used only to compare the claim's wording with the code's
`total_adjustment`. -/
def spec_three_table_adjustment (qm : QueryMeta) : Rat :=
  (match qm.type with
   | some t => query_type_adjustment t
   | none => 0)
  + (match qm.complexity with
     | some c => complexity_adjustment c
     | none => 0)
  + (match qm.intent with
     | some i => intent_adjustment i
     | none => 0)

/-! ## Router (`FinalEnhancedRAGSystem.process_enhanced_query`, lines 666-732)

The two remote collaborators are oracle parameters: `store` (ChromaDB, as
above) and `llm_sql`, the string returned by `generate_sql_with_llm` for this
request — that method returns the cleaned completion on success and `""` when
the Groq call raises (lines 662-664), so an arbitrary `String` covers both.
`search_variations` models the list `[query_metadata['expanded']] +
query_metadata['variations']` built from the preprocessor's output, and `qm`
the metadata dict handed to the threshold manager; quantifying over them
covers every preprocessor output.  `Except.error ()` is the uncaught
`IndexError` of the extraction step.  Wall-clock `execution_time` and the
diagnostic `metadata` dict are not modelled. -/

structure QueryResultL : Type where
  enhanced_sql : String
  method : String
  similarity : Rat
deriving DecidableEq

def process_enhanced_query (store : String → Except Unit (List RawHit))
    (search_variations : List String) (qm : QueryMeta) (llm_sql : String) :
    Except Unit QueryResultL :=
  let rag_results := semantic_search store search_variations 8
  let best_rag_type : Option String :=
    match rag_results.head? with
    | some e => e.meta_type
    | none => none
  let thresholds := calculate_thresholds qm best_rag_type
  let max_similarity : Rat :=
    match rag_results.head? with
    | some e => e.similarity
    | none => 0
  match
    (match rag_results.head? with
     | some e => extract_rag_sql e.document
     | none => Except.ok "") with
  | Except.error err => Except.error err
  | Except.ok rag_sql =>
    if thresholds.high ≤ max_similarity ∧ rag_sql ≠ "" then
      Except.ok ⟨rag_sql, "rag_direct_high_similarity", max_similarity⟩
    else if thresholds.medium ≤ max_similarity ∧ rag_results ≠ [] then
      Except.ok ⟨if llm_sql ≠ "" then llm_sql else rag_sql,
        "llm_enhanced_medium_similarity", max_similarity⟩
    else
      Except.ok ⟨llm_sql, "llm_generated_low_similarity", max_similarity⟩

/-! ## Query executor (`EnhancedParquetEngine.execute_query`, lines 551-576;
`WorkingRAGSystem.execute_query`, lines 319-329, is behaviourally identical)

DuckDB is the oracle `engine`, mapping the executed text to either the
column-name list plus the fetched rows, or a raised error (message string).
The success path builds `dict(zip(columns, row))` per row; the `except`
branch (after classifying the message for a logged hint, which does not
change the returned value) yields `([], False)`. -/

def execute_query {α : Type}
    (engine : String → Except String (List String × List (List α)))
    (sql : String) : List (List (String × α)) × Bool :=
  match engine (clean_sql sql) with
  | Except.ok (columns, rows) =>
    (rows.map (fun row => columns.zip row), true)
  | Except.error _ => ([], false)

/-! ## Pagination (argo_web_deployment/backend/main.py)

`process_query_with_pagination` (lines 357-378) and `get_filtered_data`
(lines 877-898) both build
`total_pages = math.ceil(total_records / page_size)`,
`has_next = page < total_pages`, `has_prev = page > 1`;
the true division is modelled exactly over `Rat`. -/

structure PaginationInfo : Type where
  total_records : Nat
  current_page : Nat
  page_size : Nat
  total_pages : Int
  has_next : Bool
  has_prev : Bool
deriving DecidableEq

def pagination_info (total_records page page_size : Nat) : PaginationInfo :=
  let total_pages : Int := ⌈(total_records : Rat) / (page_size : Rat)⌉
  ⟨total_records, page, page_size, total_pages,
    decide ((page : Int) < total_pages), decide (1 < page)⟩

/-! ## Helper lemmas -/

theorem mem_update_result {e a : MergedEntry} {k : String} :
    ∀ {m : List (String × MergedEntry)},
      e ∈ (update_result m k a).map Prod.snd →
      e = a ∨ e ∈ m.map Prod.snd := by
  intro m
  induction m with
  | nil =>
    intro h
    rw [update_result, List.map_cons, List.mem_cons] at h
    rcases h with h | h
    · exact Or.inl h
    · simp at h
  | cons p rest ih =>
    intro h
    rw [update_result] at h
    by_cases hk : p.1 = k
    · rw [if_pos hk, List.map_cons, List.mem_cons] at h
      rcases h with h | h
      · exact Or.inl h
      · exact Or.inr (by rw [List.map_cons, List.mem_cons]; exact Or.inr h)
    · rw [if_neg hk, List.map_cons, List.mem_cons] at h
      rcases h with h | h
      · exact Or.inr (by rw [List.map_cons, List.mem_cons]; exact Or.inl h)
      · rcases ih h with h' | h'
        · exact Or.inl h'
        · exact Or.inr
            (by rw [List.map_cons, List.mem_cons]; exact Or.inr h')

theorem mem_merge_hits {e : MergedEntry} {qt : String} :
    ∀ (hits : List RawHit) (i : Nat) (m : List (String × MergedEntry)),
      e ∈ (merge_hits qt i m hits).map Prod.snd →
      e ∈ m.map Prod.snd ∨ ∃ h ∈ hits, e.similarity = 1 - h.distance := by
  intro hits
  induction hits with
  | nil =>
    intro i m h
    exact Or.inl h
  | cons hd tl ih =>
    intro i m hmem
    rw [merge_hits] at hmem
    rcases ih _ _ hmem with hin | ⟨h, hh, hsim⟩
    · -- e came from the (possibly updated) accumulator
      revert hin
      cases hlk : lookup_result m (hd.meta_id.getD ("doc_" ++ toString i)) with
      | none =>
        intro hin
        rcases mem_update_result hin with he | he
        · exact Or.inr ⟨hd, by simp, by rw [he]⟩
        · exact Or.inl he
      | some old =>
        by_cases hcmp : old.similarity < 1 - hd.distance
        · intro hin
          simp only [hcmp, if_true] at hin
          rcases mem_update_result hin with he | he
          · exact Or.inr ⟨hd, by simp, by rw [he]⟩
          · exact Or.inl he
        · intro hin
          simp only [hcmp, if_false] at hin
          exact Or.inl hin
    · exact Or.inr ⟨h, by simp [hh], hsim⟩

theorem mem_all_results {e : MergedEntry}
    {store : String → Except Unit (List RawHit)} :
    ∀ (vs : List String) (m : List (String × MergedEntry)),
      e ∈ ((vs.foldl
          (fun m query_text =>
            match store query_text with
            | Except.error _ => m
            | Except.ok hits => merge_hits query_text 0 m hits) m).map
          Prod.snd) →
      e ∈ m.map Prod.snd ∨
        ∃ v hits, store v = Except.ok hits ∧
          ∃ h ∈ hits, e.similarity = 1 - h.distance := by
  intro vs
  induction vs with
  | nil =>
    intro m h
    exact Or.inl h
  | cons v rest ih =>
    intro m hmem
    rw [List.foldl_cons] at hmem
    rcases ih _ hmem with hin | hfound
    · revert hin
      cases hv : store v with
      | error u => intro hin; exact Or.inl hin
      | ok hits =>
        intro hin
        rcases mem_merge_hits hits 0 m hin with hin' | ⟨h, hh, hsim⟩
        · exact Or.inl hin'
        · exact Or.inr ⟨v, hits, hv, h, hh, hsim⟩
    · exact Or.inr hfound

theorem mem_insert_by_sim {e a : MergedEntry} :
    ∀ {l : List MergedEntry}, e ∈ insert_by_sim a l → e = a ∨ e ∈ l := by
  intro l
  induction l with
  | nil =>
    intro h
    rw [insert_by_sim, List.mem_cons] at h
    rcases h with h | h
    · exact Or.inl h
    · simp at h
  | cons x xs ih =>
    intro h
    rw [insert_by_sim] at h
    by_cases hc :
        (x.similarity < a.similarity || x.similarity = a.similarity) = true
    · rw [if_pos hc, List.mem_cons, List.mem_cons] at h
      rcases h with h | h | h
      · exact Or.inl h
      · exact Or.inr (List.mem_cons.2 (Or.inl h))
      · exact Or.inr (List.mem_cons.2 (Or.inr h))
    · rw [if_neg hc, List.mem_cons] at h
      rcases h with h | h
      · exact Or.inr (List.mem_cons.2 (Or.inl h))
      · rcases ih h with h' | h'
        · exact Or.inl h'
        · exact Or.inr (List.mem_cons.2 (Or.inr h'))

theorem mem_sort_by_sim_desc {e : MergedEntry} :
    ∀ {l : List MergedEntry}, e ∈ sort_by_sim_desc l → e ∈ l := by
  intro l
  induction l with
  | nil => intro h; exact h
  | cons x xs ih =>
    intro h
    rw [sort_by_sim_desc] at h
    rcases mem_insert_by_sim h with h' | h'
    · simp [h']
    · simp [ih h']

theorem mem_of_mem_list_take {α : Type} {e : α} :
    ∀ (n : Nat) (l : List α), e ∈ l.take n → e ∈ l := by
  intro n
  induction n with
  | zero => intro l h; simp [List.take] at h
  | succ k ih =>
    intro l h
    cases l with
    | nil => simp at h
    | cons x xs =>
      rw [List.take_succ_cons, List.mem_cons] at h
      rcases h with h | h
      · simp [h]
      · exact List.mem_cons.2 (Or.inr (ih xs h))

theorem mem_working_results_from {r : WorkingResult} :
    ∀ (hits : List RawHit) (i : Nat), r ∈ working_results_from i hits →
      ∃ h ∈ hits, r.similarity = pymax 0 (1 - h.distance) := by
  intro hits
  induction hits with
  | nil => intro i h; simp [working_results_from] at h
  | cons hd tl ih =>
    intro i hmem
    rw [working_results_from, List.mem_cons] at hmem
    rcases hmem with hmem | hmem
    · exact ⟨hd, by simp, by rw [hmem]⟩
    · rcases ih _ hmem with ⟨h, hh, hs⟩
      exact ⟨h, List.mem_cons.2 (Or.inr hh), hs⟩

/-! ## Claim theorems -/

/-- C5: for every query metadata and every best-candidate metadata, each of
the three thresholds (high, medium, low) returned by
`calculate_thresholds` is at least 0.05. -/
theorem threshold_floor (qm : QueryMeta) (rag_type : Option String) :
    (5 / 100 : Rat) ≤ (calculate_thresholds qm rag_type).high ∧
    (5 / 100 : Rat) ≤ (calculate_thresholds qm rag_type).medium ∧
    (5 / 100 : Rat) ≤ (calculate_thresholds qm rag_type).low := by
  unfold calculate_thresholds
  simp only [pymax_eq_max]
  exact ⟨le_max_left _ _, le_max_left _ _, le_max_left _ _⟩

/-- C10: for every query metadata and best-candidate metadata the returned
threshold set satisfies `low ≤ medium ≤ high`: the same scalar adjustment is
added to the three base thresholds 0.10 ≤ 0.25 ≤ 0.45 and the floor
`max 0.05 ·` is monotone. -/
theorem threshold_ordering (qm : QueryMeta) (rag_type : Option String) :
    (calculate_thresholds qm rag_type).low ≤
        (calculate_thresholds qm rag_type).medium ∧
    (calculate_thresholds qm rag_type).medium ≤
        (calculate_thresholds qm rag_type).high := by
  unfold calculate_thresholds
  simp only [pymax_eq_max]
  constructor
  · exact max_le_max le_rfl (by linarith)
  · exact max_le_max le_rfl (by linarith)

/-- C6, counterexample: with empty query metadata and a best candidate of
metadata type `column_query`, the code adds an extra 0.05 candidate-quality
bonus, so the scalar added to the 0.45 base is not the three-lookup-table
sum (which is 0 here): the high threshold comes out 0.5, not 0.45. -/
theorem rag_bonus_breaks_three_table_sum :
    (calculate_thresholds ⟨none, none, none⟩ (some "column_query")).high =
        1 / 2 ∧
    pymax (5 / 100 : Rat)
        (45 / 100 + spec_three_table_adjustment ⟨none, none, none⟩) =
      45 / 100 ∧
    ((1 : Rat) / 2) ≠ 45 / 100 := by
  refine ⟨by decide, by decide, by norm_num⟩

/-- C6, amended: the scalar added to each base threshold (before flooring)
equals the sum of the three lookup-table values for the query's type,
complexity, and intent (unmatched keys contributing 0) PLUS 0.05 when the
best candidate's metadata type is `column_query` or `table_query` (0
otherwise); that same scalar is added uniformly to the three bases
high=0.45, medium=0.25, low=0.10. -/
theorem threshold_adjustment_composition (qm : QueryMeta)
    (rag_type : Option String) :
    total_adjustment qm rag_type =
        spec_three_table_adjustment qm + rag_type_bonus rag_type ∧
    calculate_thresholds qm rag_type =
      ⟨max (5 / 100) (45 / 100 + total_adjustment qm rag_type),
       max (5 / 100) (25 / 100 + total_adjustment qm rag_type),
       max (5 / 100) (10 / 100 + total_adjustment qm rag_type)⟩ := by
  refine ⟨rfl, ?_⟩
  unfold calculate_thresholds
  simp only [pymax_eq_max]

/-- C8: for every engine behaviour and every input string, `execute_query`
either returns the converted rows with `true` (when the engine accepts the
cleaned text) or `([], false)` (when the engine raises); in both cases the
text actually executed is the input trimmed with trailing semicolons
stripped, and no exception escapes (the return type is a plain pair). -/
theorem execute_query_total {α : Type}
    (engine : String → Except String (List String × List (List α)))
    (sql : String) :
    (∃ columns rows,
        engine (clean_sql sql) = Except.ok (columns, rows) ∧
        execute_query engine sql =
          (rows.map (fun row => columns.zip row), true)) ∨
    (∃ msg, engine (clean_sql sql) = Except.error msg ∧
        execute_query engine sql = ([], false)) := by
  cases h : engine (clean_sql sql) with
  | error msg => exact Or.inr ⟨msg, rfl, by rw [execute_query, h]⟩
  | ok p => exact Or.inl ⟨p.1, p.2, rfl, by rw [execute_query, h]⟩

theorem rat_ceil_natCast_div (r s : Nat) (hs : 1 ≤ s) :
    ⌈(r : Rat) / (s : Rat)⌉ = ((r + s - 1) / s : Nat) := by
  have hs0 : (0 : Rat) < (s : Rat) := by exact_mod_cast hs
  have h1 : s * ((r + s - 1) / s) ≤ r + s - 1 := by
    rw [Nat.mul_comm]
    exact Nat.div_mul_le_self _ _
  have h2 : r + s - 1 < s * ((r + s - 1) / s) + s := by
    have h := Nat.lt_mul_div_succ (r + s - 1) (show 0 < s by omega)
    rw [Nat.mul_add, Nat.mul_one] at h
    exact h
  have hle : r ≤ s * ((r + s - 1) / s) := by omega
  have hlt : s * ((r + s - 1) / s) < r + s := by omega
  apply le_antisymm
  · rw [Int.ceil_le]
    rw [div_le_iff₀ hs0]
    have hle' : (r : Rat) ≤ (s : Rat) * (((r + s - 1) / s : Nat) : Rat) := by
      exact_mod_cast hle
    simp only [Int.cast_natCast]
    linarith
  · rw [Int.le_ceil_iff]
    rw [lt_div_iff₀ hs0]
    have hlt' : (s : Rat) * (((r + s - 1) / s : Nat) : Rat) <
        (r : Rat) + (s : Rat) := by
      exact_mod_cast hlt
    simp only [Int.cast_natCast]
    linarith

/-- C9: for every `total_records ≥ 0`, `page_size ≥ 1` and `page ≥ 1`, the
pagination dict built by the query endpoints satisfies
`total_pages = ceil(total_records / page_size)` (equivalently the integer
formula `(total_records + page_size - 1) / page_size`),
`has_next ↔ page < total_pages`, and `has_prev ↔ page > 1`. -/
theorem pagination_law (r p s : Nat) (hs : 1 ≤ s) (_hp : 1 ≤ p) :
    (pagination_info r p s).total_pages = ⌈(r : Rat) / (s : Rat)⌉ ∧
    (pagination_info r p s).total_pages = ((r + s - 1) / s : Nat) ∧
    ((pagination_info r p s).has_next = true ↔
      (p : Int) < (pagination_info r p s).total_pages) ∧
    ((pagination_info r p s).has_prev = true ↔ 1 < p) := by
  refine ⟨rfl, rat_ceil_natCast_div r s hs, ?_, ?_⟩
  · simp [pagination_info]
  · simp [pagination_info]

/-- C9 witness: `pagination_law` at `total_records = 5`, `page = 2`,
`page_size = 2` (so `total_pages = 3`, `has_next`, `has_prev`). -/
theorem pagination_law_witness :
    ((1 : Nat) ≤ 2 ∧ (1 : Nat) ≤ 2) ∧
    ((pagination_info 5 2 2).total_pages = ⌈((5 : Nat) : Rat) / ((2 : Nat) : Rat)⌉ ∧
     (pagination_info 5 2 2).total_pages = ((5 + 2 - 1) / 2 : Nat) ∧
     ((pagination_info 5 2 2).has_next = true ↔
       ((2 : Nat) : Int) < (pagination_info 5 2 2).total_pages) ∧
     ((pagination_info 5 2 2).has_prev = true ↔ 1 < 2)) :=
  ⟨⟨by decide, by decide⟩, pagination_law 5 2 2 (by decide) (by decide)⟩

/-- C1: evidence of the extraction slip.  A request whose top search result
has similarity 0.6 (above every reachable high threshold) and whose document
is the bare statement `SELECT COUNT(*) FROM floats` (no `SQL:` label) should,
per the claim, resolve to the direct-reuse tier with exactly that string;
instead `process_enhanced_query` raises `IndexError` out of
`match.group(1)`, because the `SELECT` patterns of the cascade have no
capturing group, and no tier is chosen at all. -/
theorem routing_crashes_on_bare_select_document :
    process_enhanced_query
        (fun _ =>
          Except.ok [⟨"SELECT COUNT(*) FROM floats", none, none, 2 / 5⟩])
        ["count floats"] ⟨none, none, none⟩ "" = Except.error () := by
  decide

/-- C4: evidence that merging is not keyed by template id on the real corpus.
The corpus generator stores no `'id'` key inside `metadata`, so
`metadata.get('id', f"doc_{i}")` falls back to the rank index: one and the
same template document `T1doc`, ranked 0th for the first variation
(similarity 0.5) and 1st for the second (similarity 0.3), is merged under the
two distinct keys `doc_0` and `doc_1` and is returned twice. -/
theorem merge_duplicates_template_without_metadata_id :
    (semantic_search
        (fun v =>
          if v = "a" then Except.ok [⟨"T1doc", none, none, 1 / 2⟩]
          else
            Except.ok [⟨"T2doc", none, none, 3 / 5⟩,
              ⟨"T1doc", none, none, 7 / 10⟩])
        ["a", "b"] 10).map (fun e => (e.document, e.similarity)) =
      [("T1doc", 1 / 2), ("T1doc", 3 / 10)] := by
  decide

/-- C2, counterexample: when the HF provider fails on all 3 retry attempts
and the local fallback also fails, `APIEmbeddingFunction.__call__` returns
the constant placeholder embedding instead of raising or yielding an empty
result, so the vector-store query still runs; if the store then answers with
a high-similarity labelled template, the routing tier is direct reuse — not
the LLM-generated tier the claim forces. -/
theorem provider_failure_does_not_force_llm_tier :
    APIEmbeddingFunction_call true
        [ApiAttempt.exn, ApiAttempt.exn, ApiAttempt.exn] none
        ["count floats"] =
      [List.replicate 384 ((1 : Rat) / 10)] ∧
    process_enhanced_query
        (fun _ => Except.ok [⟨"SQL: SELECT 1", none, none, 1 / 10⟩])
        ["count floats"] ⟨none, none, none⟩ "X" =
      Except.ok ⟨"SELECT 1", "rag_direct_high_similarity", 9 / 10⟩ := by
  constructor
  · rfl
  · decide

theorem all_results_empty_of_store_error
    (store : String → Except Unit (List RawHit))
    (h : ∀ v, store v = Except.error ()) :
    ∀ (vs : List String) (m : List (String × MergedEntry)),
      vs.foldl
        (fun m query_text =>
          match store query_text with
          | Except.error _ => m
          | Except.ok hits => merge_hits query_text 0 m hits) m = m := by
  intro vs
  induction vs with
  | nil => intro m; rfl
  | cons v rest ih =>
    intro m
    rw [List.foldl_cons]
    have hv : (match store v with
        | Except.error _ => m
        | Except.ok hits => merge_hits v 0 m hits) = m := by
      rw [h v]
    rw [hv]
    exact ih m

/-- C2, amended: `APIEmbeddingFunction.__call__` never raises — after the
provider fails all 3 retry attempts it substitutes a local fallback and then
a constant placeholder embedding.  `semantic_search` returns the empty list
when every per-variation vector-store query raises (the designed degradation
caught by its `try`/`except`), and in that case the routing tier is the
LLM-generated tier regardless of the input text, with top similarity 0.0. -/
theorem search_empty_when_all_store_queries_fail
    (store : String → Except Unit (List RawHit))
    (search_variations : List String) (qm : QueryMeta) (llm_sql : String)
    (h : ∀ v, store v = Except.error ()) :
    semantic_search store search_variations 8 = [] ∧
    process_enhanced_query store search_variations qm llm_sql =
      Except.ok ⟨llm_sql, "llm_generated_low_similarity", 0⟩ := by
  have hall : all_results store search_variations = [] :=
    all_results_empty_of_store_error store h (search_variations.take 5) []
  have hsearch : semantic_search store search_variations 8 = [] := by
    rw [semantic_search, hall]
    rfl
  refine ⟨hsearch, ?_⟩
  simp only [process_enhanced_query, hsearch, List.head?_nil]
  rw [if_neg (fun hc => hc.2 rfl), if_neg (fun hc => hc.2 rfl)]

/-- C2 witness: `search_empty_when_all_store_queries_fail` for a store whose
every query raises. -/
theorem search_empty_when_all_store_queries_fail_witness :
    (∀ v : String, (fun (_ : String) => (Except.error () : Except Unit (List RawHit))) v =
        Except.error ()) ∧
    (semantic_search (fun _ => Except.error ()) ["thermal stratification analysis"] 8 = [] ∧
     process_enhanced_query (fun _ => Except.error ())
        ["thermal stratification analysis"] ⟨none, none, none⟩ "GEN" =
      Except.ok ⟨"GEN", "llm_generated_low_similarity", 0⟩) :=
  ⟨fun _ => rfl,
    search_empty_when_all_store_queries_fail _ _ ⟨none, none, none⟩ "GEN"
      (fun _ => rfl)⟩

/-- C3, counterexample: `OptimizedChromaManager.semantic_search` computes
`similarity = 1.0 - distance` without clamping, and cosine distance on
normalised vectors ranges over `[0, 2]`; a store response with distance 1.5
yields a returned result whose similarity is −0.5, outside `[0, 1]`. -/
theorem unclamped_similarity_below_zero :
    ((semantic_search (fun _ => Except.ok [⟨"d", none, none, 3 / 2⟩])
        ["q"] 10).map (fun e => e.similarity)) = [-(1 / 2)] ∧
    ¬ ((0 : Rat) ≤ -(1 / 2)) := by
  constructor
  · decide
  · decide

/-- C3, amended: `WorkingChromaManager.semantic_search` clamps with
`max(0.0, 1.0 - distance)`, so with non-negative distances every returned
similarity lies in `[0, 1]`; `OptimizedChromaManager.semantic_search` does
not clamp (`similarity = 1.0 - distance`), so its returned similarities lie
in `[0, 1]` only under the assumption that every store distance lies in
`[0, 1]`. -/
theorem similarity_bounds
    (hits : List RawHit) (store : String → Except Unit (List RawHit))
    (search_variations : List String) (top_k : Nat)
    (hw : ∀ h ∈ hits, (0 : Rat) ≤ h.distance)
    (ho : ∀ v hs, store v = Except.ok hs →
        ∀ h ∈ hs, (0 : Rat) ≤ h.distance ∧ h.distance ≤ 1) :
    (∀ r ∈ working_semantic_search (Except.ok hits),
        0 ≤ r.similarity ∧ r.similarity ≤ 1) ∧
    (∀ e ∈ semantic_search store search_variations top_k,
        0 ≤ e.similarity ∧ e.similarity ≤ 1) := by
  constructor
  · intro r hr
    rw [working_semantic_search] at hr
    rcases mem_working_results_from hits 0 hr with ⟨h, hh, hs⟩
    have hd := hw h hh
    rw [hs, pymax_eq_max]
    constructor
    · exact le_max_left 0 _
    · apply max_le
      · norm_num
      · linarith
  · intro e he
    have h1 := mem_of_mem_list_take top_k _ he
    have h2 := mem_sort_by_sim_desc h1
    rw [all_results] at h2
    rcases mem_all_results _ _ h2 with hin | ⟨v, hs, hok, h, hh, hsim⟩
    · simp at hin
    · have hd := ho v hs hok h hh
      rw [hsim]
      constructor
      · linarith [hd.2]
      · linarith [hd.1]

/-- C3 witness: `similarity_bounds` for a one-hit store with distance 0.5:
both searches return similarity values inside `[0, 1]`. -/
theorem similarity_bounds_witness :
    ((∀ h ∈ ([⟨"d", none, none, 1 / 2⟩] : List RawHit),
        (0 : Rat) ≤ h.distance) ∧
     (∀ v hs,
        (fun (_ : String) =>
            (Except.ok [⟨"d", none, none, 1 / 2⟩] :
              Except Unit (List RawHit))) v = Except.ok hs →
        ∀ h ∈ hs, (0 : Rat) ≤ h.distance ∧ h.distance ≤ 1)) ∧
    ((∀ r ∈ working_semantic_search
          (Except.ok [⟨"d", none, none, 1 / 2⟩]),
        0 ≤ r.similarity ∧ r.similarity ≤ 1) ∧
     (∀ e ∈ semantic_search
          (fun _ => Except.ok [⟨"d", none, none, 1 / 2⟩]) ["q"] 10,
        0 ≤ e.similarity ∧ e.similarity ≤ 1)) :=
  ⟨⟨by decide, fun v hs hv => by
      simp only [Except.ok.injEq] at hv
      subst hv
      decide⟩,
    similarity_bounds [⟨"d", none, none, 1 / 2⟩]
      (fun _ => Except.ok [⟨"d", none, none, 1 / 2⟩]) ["q"] 10
      (by decide)
      (fun v hs hv => by
        simp only [Except.ok.injEq] at hv
        subst hv
        decide)⟩

/-- C7: whenever `process_enhanced_query` resolves to the LLM-enhanced
medium-similarity tier, the final SQL is the generated string when that is
non-empty; when the generation call returns the empty string (which is also
what a raised provider exception is converted to), the final SQL is exactly
the string extracted from the best template's document (possibly empty), and
the tier itself never aborts with an error. -/
theorem llm_enhanced_fallback
    (store : String → Except Unit (List RawHit))
    (search_variations : List String) (qm : QueryMeta) (llm_sql : String)
    (res : QueryResultL)
    (hok : process_enhanced_query store search_variations qm llm_sql =
      Except.ok res)
    (hm : res.method = "llm_enhanced_medium_similarity") :
    (llm_sql ≠ "" ∧ res.enhanced_sql = llm_sql) ∨
    (llm_sql = "" ∧ ∃ best,
        (semantic_search store search_variations 8).head? = some best ∧
        extract_rag_sql best.document = Except.ok res.enhanced_sql) := by
  cases hss : semantic_search store search_variations 8 with
  | nil =>
    simp only [process_enhanced_query, hss, List.head?_nil] at hok
    rw [if_neg (fun hc => hc.2 rfl), if_neg (by simp)] at hok
    injection hok with h
    subst h
    simp at hm
  | cons best rest =>
    simp only [process_enhanced_query, hss, List.head?_cons] at hok
    cases hex : extract_rag_sql best.document with
    | error u =>
      simp only [hex] at hok
      exact (Except.noConfusion hok)
    | ok rag_sql =>
      simp only [hex] at hok
      split at hok
      · injection hok with h
        subst h
        simp at hm
      · split at hok
        · injection hok with h
          subst h
          by_cases hl : llm_sql = ""
          · refine Or.inr ⟨hl, best, rfl, ?_⟩
            show extract_rag_sql best.document =
              Except.ok (if llm_sql ≠ "" then llm_sql else rag_sql)
            rw [if_neg (by simp [hl])]
            exact hex
          · refine Or.inl ⟨hl, ?_⟩
            show (if llm_sql ≠ "" then llm_sql else rag_sql) = llm_sql
            rw [if_pos hl]
        · injection hok with h
          subst h
          simp at hm

/-- C7 witness: `llm_enhanced_fallback` at a request whose top hit has
similarity 0.3 (medium tier) with document `SQL: SELECT 1` and a generation
call that returned the empty string: the final SQL is the extracted
`SELECT 1`. -/
theorem llm_enhanced_fallback_witness :
    (process_enhanced_query
        (fun _ => Except.ok [⟨"SQL: SELECT 1", none, none, 7 / 10⟩])
        ["q"] ⟨none, none, none⟩ "" =
      Except.ok ⟨"SELECT 1", "llm_enhanced_medium_similarity", 3 / 10⟩ ∧
     ("llm_enhanced_medium_similarity" : String) =
       "llm_enhanced_medium_similarity") ∧
    ((("" : String) ≠ "" ∧ ("SELECT 1" : String) = "") ∨
     (("" : String) = "" ∧ ∃ best,
        (semantic_search
            (fun _ => Except.ok [⟨"SQL: SELECT 1", none, none, 7 / 10⟩])
            ["q"] 8).head? = some best ∧
        extract_rag_sql best.document = Except.ok "SELECT 1")) :=
  ⟨⟨by decide, rfl⟩,
    llm_enhanced_fallback
      (fun _ => Except.ok [⟨"SQL: SELECT 1", none, none, 7 / 10⟩])
      ["q"] ⟨none, none, none⟩ ""
      ⟨"SELECT 1", "llm_enhanced_medium_similarity", 3 / 10⟩
      (by decide) rfl⟩

end AliveRag
